import Mathlib

/-!
Shallow embedding of the core of `orpheus-engine`'s python backend:

* `src/python-backend/src/orpheus_backend/websocket/manager.py`
  (`WebSocketManager`: connection registry, room router, broadcast
  dispatcher, message history ring), and
* `src/python-backend/src/orpheus_backend/audio/engine.py`
  (`AudioEngine`: transport state, the `_audio_processing_loop` tick loop
  and `_advance_playhead`).

Python `dict`s are embedded as insertion-ordered association lists and
python `set`s of client ids as duplicate-free lists; iteration order of a
dict is its insertion order.  CPython raises `RuntimeError` when the size
of a dict or set changes while it is being iterated: the next call to the
iterator (including the final one that would end the loop) fails.  The
broadcast loops below model that check explicitly.

Socket I/O outcomes are external to the state, so each operation that
writes to a socket takes an oracle `beh : String → SendOutcome` saying
how the given client's `websocket.send_text` call behaves.
-/

/-- Outcome of one `websocket.send_text` call for a given client:
it succeeds, raises `WebSocketDisconnect`, or raises some other
exception (both caught inside `send_to_client`). -/
inductive SendOutcome
  | ok
  | wsDisconnect
  | otherError
deriving DecidableEq, Repr

/-- Python runtime failures the embedding can surface: mutating a dict or
set while iterating it. -/
inductive PyError
  | runtimeError
deriving DecidableEq, Repr

/-- Membership test of a python dict (`k in d`). -/
def dictContains (d : List (String × α)) (k : String) : Bool :=
  d.any (fun kv => kv.1 = k)

/-- Lookup in a python dict, with a default (`d.get(k, dflt)`). -/
def dictGetD (d : List (String × α)) (k : String) (dflt : α) : α :=
  match d.find? (fun kv => kv.1 = k) with
  | some kv => kv.2
  | none => dflt

/-- Lookup in a python dict (`d[k]` guarded by a containment check). -/
def dictGet (d : List (String × α)) (k : String) : Option α :=
  (d.find? (fun kv => kv.1 = k)).map (fun kv => kv.2)

/-- Assignment `d[k] = v`: replaces the value in place if the key exists
(keeping its position), otherwise appends the new entry. -/
def dictSet (d : List (String × α)) (k : String) (v : α) : List (String × α) :=
  if dictContains d k then
    d.map (fun kv => if kv.1 = k then (k, v) else kv)
  else d ++ [(k, v)]

/-- Deletion `del d[k]`. -/
def dictDel (d : List (String × α)) (k : String) : List (String × α) :=
  d.filter (fun kv => kv.1 ≠ k)

/-- In-place update of one entry's value, keeping the key set and order. -/
def dictUpdate (d : List (String × α)) (k : String) (f : α → α) : List (String × α) :=
  d.map (fun kv => if kv.1 = k then (kv.1, f kv.2) else kv)

/-- Python `set.discard(x)` on a set embedded as a duplicate-free list. -/
def pyDiscard (s : List String) (x : String) : List String :=
  s.filter (fun y => y ≠ x)

/-- Python `set.add(x)` on a set embedded as a duplicate-free list. -/
def pySetAdd (s : List String) (x : String) : List String :=
  if s.contains x then s else s ++ [x]

/-- A `WebSocketMessage` (manager.py lines 19-24): `type`, `data` and a
timestamp; the payload is embedded as its serialized text. -/
structure WSMessage where
  type : String
  data : String
  timestamp : Nat
deriving DecidableEq, Repr

/-- `ConnectionInfo` (manager.py lines 27-32): the record the registry
keeps per client.  The live `websocket` handle is external I/O and is
represented by the `beh` oracle at each send, not stored here. -/
structure ConnectionInfo where
  connected_at : Nat
  subscriptions : List String
deriving DecidableEq, Repr

/-- State of `WebSocketManager` (manager.py lines 38-42): the connection
dict, the room → member-set dict, the history list and its bound. -/
structure WebSocketManager where
  connections : List (String × ConnectionInfo)
  room_connections : List (String × List String)
  message_history : List WSMessage
  max_history : Nat
deriving DecidableEq, Repr

/-- A fresh manager: `WebSocketManager.__init__` with `max_history = 1000`. -/
def WebSocketManager.init : WebSocketManager :=
  { connections := [], room_connections := [], message_history := [], max_history := 1000 }

/-- `WebSocketManager.disconnect` (manager.py lines 70-82): if the client
is registered, discard it from every room's member set (room entries are
kept, even when they become empty) and delete its connection record;
unknown ids are a no-op. -/
def WebSocketManager.disconnect (st : WebSocketManager) (client_id : String) :
    WebSocketManager :=
  if dictContains st.connections client_id then
    { st with
      room_connections :=
        st.room_connections.map (fun kv => (kv.1, pyDiscard kv.2 client_id)),
      connections := dictDel st.connections client_id }
  else st

/-- `WebSocketManager.send_to_client` (manager.py lines 84-108): unknown
clients get `False`; otherwise the socket write either succeeds (`True`),
raises `WebSocketDisconnect` — in which case the client is disconnected
right here, inside the caller's iteration — or raises some other
exception (`False`, no state change). -/
def WebSocketManager.send_to_client (st : WebSocketManager) (beh : String → SendOutcome)
    (client_id : String) (_message : WSMessage) : WebSocketManager × Bool :=
  if dictContains st.connections client_id then
    match beh client_id with
    | .ok => (st, true)
    | .wsDisconnect => (st.disconnect client_id, false)
    | .otherError => (st, false)
  else (st, false)

/-- `WebSocketManager._add_to_history` (manager.py lines 199-205): append,
then truncate to the last `max_history` entries when over the bound.
`h[-n:]` for `n = 0` is the whole list (python slice semantics). -/
def WebSocketManager.add_to_history (st : WebSocketManager) (message : WSMessage) :
    WebSocketManager :=
  let h := st.message_history ++ [message]
  { st with
    message_history :=
      if st.max_history < h.length then
        if st.max_history = 0 then h else h.drop (h.length - st.max_history)
      else h }

/-- Last `n` messages of the history (`self.message_history[-n:]`, the
`recent` lookup used to serve `get_history` requests). -/
def WebSocketManager.recent (st : WebSocketManager) (n : Nat) : List WSMessage :=
  if n = 0 then st.message_history
  else st.message_history.drop (st.message_history.length - n)

/-- The `for client_id in self.connections:` loop of
`WebSocketManager.broadcast` (manager.py lines 118-124).  `keys` is what
the dict iterator will yield; before yielding each element (and before
ending the loop) CPython checks that the dict's size still equals
`initSize` and raises `RuntimeError` otherwise.  Accumulates the success
count and the list of failed clients. -/
def broadcastLoop (beh : String → SendOutcome) (message : WSMessage)
    (exclude_clients : List String) (initSize : Nat) :
    List String → WebSocketManager → Nat → List String →
      Except PyError (WebSocketManager × Nat × List String)
  | [], st, sent, failed =>
    if st.connections.length = initSize then .ok (st, sent, failed)
    else .error .runtimeError
  | c :: rest, st, sent, failed =>
    if st.connections.length = initSize then
      if exclude_clients.contains c then
        broadcastLoop beh message exclude_clients initSize rest st sent failed
      else
        match st.send_to_client beh c message with
        | (st', success) =>
          if success then
            broadcastLoop beh message exclude_clients initSize rest st' (sent + 1) failed
          else
            broadcastLoop beh message exclude_clients initSize rest st' sent (failed ++ [c])
    else .error .runtimeError

/-- `WebSocketManager.broadcast` (manager.py lines 110-133): iterate every
connected client not excluded, send, collect failures; then disconnect
the collected failures in a batch, append the message to the history and
return the success count. -/
def WebSocketManager.broadcast (st : WebSocketManager) (beh : String → SendOutcome)
    (message : WSMessage) (exclude_clients : List String) :
    Except PyError (WebSocketManager × Nat) :=
  match broadcastLoop beh message exclude_clients st.connections.length
      (st.connections.map Prod.fst) st 0 [] with
  | .error e => .error e
  | .ok (st1, sent, failed) =>
    let st2 := failed.foldl (fun s c => s.disconnect c) st1
    .ok (st2.add_to_history message, sent)

/-- The `for client_id in self.room_connections[room]:` loop of
`WebSocketManager.broadcast_to_room` (manager.py lines 146-152).  The
iterated collection is the room's member set, so the size check is
against that set's current size. -/
def broadcastRoomLoop (beh : String → SendOutcome) (message : WSMessage)
    (exclude_clients : List String) (room : String) (initSize : Nat) :
    List String → WebSocketManager → Nat → List String →
      Except PyError (WebSocketManager × Nat × List String)
  | [], st, sent, failed =>
    if (dictGetD st.room_connections room []).length = initSize then .ok (st, sent, failed)
    else .error .runtimeError
  | c :: rest, st, sent, failed =>
    if (dictGetD st.room_connections room []).length = initSize then
      if !exclude_clients.contains c && dictContains st.connections c then
        match st.send_to_client beh c message with
        | (st', success) =>
          if success then
            broadcastRoomLoop beh message exclude_clients room initSize rest st' (sent + 1) failed
          else
            broadcastRoomLoop beh message exclude_clients room initSize rest st' sent (failed ++ [c])
      else
        broadcastRoomLoop beh message exclude_clients room initSize rest st sent failed
    else .error .runtimeError

/-- `WebSocketManager.broadcast_to_room` (manager.py lines 135-158): `0`
for an unknown room; otherwise iterate the room's member set, send to
each member that is connected and not excluded, then disconnect the
collected failures in a batch and return the success count (no history
append here). -/
def WebSocketManager.broadcast_to_room (st : WebSocketManager) (beh : String → SendOutcome)
    (room : String) (message : WSMessage) (exclude_clients : List String) :
    Except PyError (WebSocketManager × Nat) :=
  if dictContains st.room_connections room then
    match broadcastRoomLoop beh message exclude_clients room
        (dictGetD st.room_connections room []).length
        (dictGetD st.room_connections room []) st 0 [] with
    | .error e => .error e
    | .ok (st1, sent, failed) =>
      .ok (failed.foldl (fun s c => s.disconnect c) st1, sent)
  else .ok (st, 0)

/-- `WebSocketManager.connect` (manager.py lines 44-68): accept the
socket, build a fresh `ConnectionInfo` and assign it under `client_id` —
unconditionally, replacing any existing record — then send the welcome
message through `send_to_client`. -/
def WebSocketManager.connect (st : WebSocketManager) (beh : String → SendOutcome)
    (client_id : String) (now : Nat) : WebSocketManager :=
  let st1 := { st with
    connections := dictSet st.connections client_id
      { connected_at := now, subscriptions := [] } }
  (st1.send_to_client beh client_id
    { type := "connection_established", data := client_id, timestamp := now }).1

/-- `WebSocketManager.join_room` (manager.py lines 160-177): requires the
client to be connected; creates the room lazily, adds the client to the
member set and records the room on the client's subscriptions. -/
def WebSocketManager.join_room (st : WebSocketManager) (client_id room : String) :
    WebSocketManager × Bool :=
  if dictContains st.connections client_id then
    ({ st with
        room_connections :=
          dictSet st.room_connections room
            (pySetAdd (dictGetD st.room_connections room []) client_id),
        connections :=
          dictUpdate st.connections client_id
            (fun ci => { ci with subscriptions := pySetAdd ci.subscriptions room }) },
      true)
  else (st, false)

/-- `WebSocketManager.leave_room` (manager.py lines 179-197): discard the
client from the room's member set, delete the room entry once it becomes
empty, and drop the room from the client's subscriptions. -/
def WebSocketManager.leave_room (st : WebSocketManager) (client_id room : String) :
    WebSocketManager × Bool :=
  let st1 :=
    if dictContains st.room_connections room then
      let members := pyDiscard (dictGetD st.room_connections room []) client_id
      if members = [] then
        { st with room_connections := dictDel st.room_connections room }
      else
        { st with room_connections := dictSet st.room_connections room members }
    else st
  let st2 :=
    if dictContains st1.connections client_id then
      { st1 with
        connections :=
          dictUpdate st1.connections client_id
            (fun ci => { ci with subscriptions := pyDiscard ci.subscriptions room }) }
    else st1
  (st2, true)

/-!
The audio engine (`audio/engine.py`).  Machine floats are embedded as
exact rationals; `time.time()` cycle measurements are external inputs.
-/

/-- `TimelinePosition` (models.py lines 36-40): python ints, default 0.
The fields are mutated without validation, so positions can leave the
normalized range. -/
structure TimelinePosition where
  bar : Int := 0
  beat : Int := 0
  tick : Int := 0
deriving DecidableEq, Repr

/-- The claim-relevant slice of a `Project` (models.py lines 116-125):
tempo (default 120.0), `time_signature` (default `(4, 4)`), and the track
list, embedded by its ids. -/
structure Project where
  name : String
  tempo : ℚ := 120
  time_signature : Int × Int := (4, 4)
  tracks : List String := []
deriving DecidableEq, Repr

/-- `EngineStatus` (models.py lines 151-159), as built by
`AudioEngine.get_status`. -/
structure EngineStatus where
  is_playing : Bool
  is_recording : Bool
  playhead_position : TimelinePosition
  cpu_usage : ℚ
  memory_usage : ℚ
  buffer_underruns : Nat
  active_tracks : Nat
deriving DecidableEq, Repr

/-- State of `AudioEngine` (engine.py lines 34-48).  `loop_tasks` counts
the live `_audio_processing_loop` tasks spawned by `asyncio.create_task`
in `play` (engine.py line 154); the python object does not store this
count, but each `create_task` call adds one concurrently running loop,
and the count is what the spec's "tick loop is already running" talks
about.  `loaded_audio_files` carries no claim-relevant state and is
omitted. -/
structure AudioEngine where
  is_initialized : Bool := false
  is_playing : Bool := false
  is_recording : Bool := false
  playhead_position : TimelinePosition := {}
  current_project : Option Project := none
  sample_rate : Nat := 44100
  buffer_size : Nat := 512
  channels : Nat := 2
  cpu_usage : ℚ := 0
  memory_usage : ℚ := 0
  buffer_underruns : Nat := 0
  loop_tasks : Nat := 0
deriving DecidableEq, Repr

/-- Errors an engine call can signal: `RuntimeError` from `play` when the
engine is not initialized, and the spec's `InvalidParameter`. -/
inductive EngineError
  | runtimeError
  | invalidParameter
deriving DecidableEq, Repr

/-- Python `int(q)`: truncation toward zero — the floor for non-negative
arguments, the negated floor of the negation otherwise. -/
def pyInt (q : ℚ) : Int :=
  if 0 ≤ q then ⌊q⌋ else -⌊-q⌋

/-- The `while self.playhead_position.tick >= 480:` loop of
`_advance_playhead` (engine.py lines 222-224), fuel-indexed: each unit of
fuel allows one iteration, `none` meaning the fuel ran out before the
loop condition turned false. -/
def whileTick (fuel : Nat) (tick beat : Int) : Option (Int × Int) :=
  if 480 ≤ tick then
    match fuel with
    | 0 => none
    | f + 1 => whileTick f (tick - 480) (beat + 1)
  else some (tick, beat)

/-- The `while self.playhead_position.beat >= beats_per_bar:` loop of
`_advance_playhead` (engine.py lines 227-229), fuel-indexed the same
way.  When `beats_per_bar ≤ 0` the loop body never decreases `beat`, so
no amount of fuel finishes it — the python loop runs forever. -/
def whileBeat (beats_per_bar : Int) (fuel : Nat) (beat bar : Int) : Option (Int × Int) :=
  if beats_per_bar ≤ beat then
    match fuel with
    | 0 => none
    | f + 1 => whileBeat beats_per_bar f (beat - beats_per_bar) (bar + 1)
  else some (beat, bar)

/-- `AudioEngine._advance_playhead` (engine.py lines 208-229): no-op
without a project; otherwise convert the duration to ticks via
`ticks_per_second = (tempo / 60) * 480`, truncate with `int(...)`, add to
`tick`, and normalize with the two `while` loops.  There is no parameter
validation anywhere in the method.  `none` means a normalization loop
exceeded the given fuel (for `beats_per_bar ≤ 0`, every fuel). -/
def AudioEngine.advance_playhead (st : AudioEngine) (fuel : Nat)
    (duration_seconds : ℚ) : Option AudioEngine :=
  match st.current_project with
  | none => some st
  | some project =>
    let ticks_per_second : ℚ := project.tempo / 60 * 480
    let ticks_to_advance : Int := pyInt (duration_seconds * ticks_per_second)
    match whileTick fuel (st.playhead_position.tick + ticks_to_advance)
        st.playhead_position.beat with
    | none => none
    | some (tick, beat) =>
      match whileBeat project.time_signature.1 fuel beat st.playhead_position.bar with
      | none => none
      | some (beat', bar) =>
        some { st with playhead_position := { bar := bar, beat := beat', tick := tick } }

/-- `AudioEngine._process_audio_buffer` (engine.py lines 196-206): early
return without a project, and a placeholder `pass` otherwise — no state
change either way. -/
def AudioEngine.process_audio_buffer (st : AudioEngine) : AudioEngine :=
  match st.current_project with
  | none => st
  | some _ => st

/-- One iteration of `_audio_processing_loop`'s body (engine.py lines
175-194), given this cycle's externally measured `processing_time`
(`time.time() - start_time`): process a buffer, advance the playhead by
`buffer_size / sample_rate` seconds, record the CPU-usage proxy, then
sleep for `max(0, buffer_duration - processing_time)` if that is
positive and otherwise count a buffer underrun. -/
def AudioEngine.audio_processing_cycle (st : AudioEngine) (fuel : Nat)
    (processing_time : ℚ) : Option AudioEngine :=
  let buffer_duration : ℚ := (st.buffer_size : ℚ) / (st.sample_rate : ℚ)
  match (st.process_audio_buffer).advance_playhead fuel buffer_duration with
  | none => none
  | some st1 =>
    let st2 := { st1 with cpu_usage := processing_time / buffer_duration * 100 }
    let sleep_time : ℚ := max 0 (buffer_duration - processing_time)
    some (if 0 < sleep_time then st2
          else { st2 with buffer_underruns := st2.buffer_underruns + 1 })

/-- `AudioEngine._audio_processing_loop` (engine.py lines 172-194): the
`while self.is_playing:` loop, driven by the list of per-cycle
processing-time measurements that the run provides. -/
def AudioEngine.audio_processing_loop (fuel : Nat) :
    List ℚ → AudioEngine → Option AudioEngine
  | [], st => some st
  | pt :: rest, st =>
    if st.is_playing then
      match st.audio_processing_cycle fuel pt with
      | none => none
      | some st' => AudioEngine.audio_processing_loop fuel rest st'
    else some st

/-- `AudioEngine.play` (engine.py lines 145-154): `RuntimeError` when not
initialized; otherwise set `is_playing` and unconditionally
`asyncio.create_task(self._audio_processing_loop())` — one more live
loop task, with no check whether one is already running. -/
def AudioEngine.play (st : AudioEngine) : Except EngineError AudioEngine :=
  if st.is_initialized then
    .ok { st with is_playing := true, loop_tasks := st.loop_tasks + 1 }
  else .error .runtimeError

/-- `AudioEngine.pause` (engine.py lines 156-159). -/
def AudioEngine.pause (st : AudioEngine) : AudioEngine :=
  { st with is_playing := false }

/-- `AudioEngine.stop` (engine.py lines 161-165): clear `is_playing` and
reset the playhead to a fresh `TimelinePosition()`. -/
def AudioEngine.stop (st : AudioEngine) : AudioEngine :=
  { st with is_playing := false, playhead_position := {} }

/-- `AudioEngine.record` (engine.py lines 167-170): toggle the flag. -/
def AudioEngine.record (st : AudioEngine) : AudioEngine :=
  { st with is_recording := !st.is_recording }

/-- `AudioEngine.get_status` (engine.py lines 236-246). -/
def AudioEngine.get_status (st : AudioEngine) : EngineStatus :=
  { is_playing := st.is_playing
    is_recording := st.is_recording
    playhead_position := st.playhead_position
    cpu_usage := st.cpu_usage
    memory_usage := st.memory_usage
    buffer_underruns := st.buffer_underruns
    active_tracks := match st.current_project with
      | some p => p.tracks.length
      | none => 0 }

/-- Tempo governing a seek: the current project's, or the `Project` model
default `120.0` when none is loaded. -/
def AudioEngine.seekTempo (st : AudioEngine) : ℚ :=
  match st.current_project with
  | some p => p.tempo
  | none => 120

/-- Beats per bar governing a seek: the current project's time-signature
numerator, or the model default `4`. -/
def AudioEngine.seekBeatsPerBar (st : AudioEngine) : Int :=
  match st.current_project with
  | some p => p.time_signature.1
  | none => 4

/-- Modelled from the spec: `AudioEngine.seek` does not exist in `src/` —
`api/audio.py` line 132 and `daw_generator/mini_daw.py` line 131 only call
it.  Spec §4.2: "`seek(positionSeconds)`: rejects negative input with
`InvalidParameter`; otherwise sets playheadPosition via
`toSeconds`/inverse conversion, allowed in any state."  The inverse
conversion mirrors `advance_playhead`'s tick arithmetic: total ticks
`int(seconds * (tempo / 60) * 480)` split into bar/beat/tick with python
floor division and modulo (480 ticks per beat, `beatsPerBar` beats per
bar). -/
def AudioEngine.seek (st : AudioEngine) (position_seconds : ℚ) :
    Except EngineError AudioEngine :=
  if position_seconds < 0 then .error .invalidParameter
  else
    let total_ticks : Int := pyInt (position_seconds * (st.seekTempo / 60 * 480))
    let bpb : Int := st.seekBeatsPerBar
    .ok { st with
      playhead_position :=
        { bar := (total_ticks.ediv 480).ediv bpb
          beat := (total_ticks.ediv 480).emod bpb
          tick := total_ticks.emod 480 } }

/-- Engine state as seen by the caller after a `seek` call: unchanged
when the call was rejected. -/
def AudioEngine.seekResultState (st : AudioEngine) (position_seconds : ℚ) : AudioEngine :=
  match st.seek position_seconds with
  | .ok st' => st'
  | .error _ => st

/-!
Concrete states and oracles used by the counterexample and failing-input
theorems below.
-/

/-- Every send succeeds. -/
def behOk : String → SendOutcome := fun _ => .ok

/-- Every send raises `WebSocketDisconnect`. -/
def behWsd : String → SendOutcome := fun _ => .wsDisconnect

/-- Client `"a"`'s socket raises `WebSocketDisconnect`; all others
succeed. -/
def behFailA : String → SendOutcome := fun c => if c = "a" then .wsDisconnect else .ok

/-- A sample event. -/
def msg0 : WSMessage := { type := "transport_update", data := "state", timestamp := 0 }

/-- A manager with the single connected client `"a"`. -/
def mgrOneClient : WebSocketManager :=
  { connections := [("a", { connected_at := 0, subscriptions := [] })]
    room_connections := []
    message_history := []
    max_history := 1000 }

/-- A manager with clients `"a"` and `"b"`, both members of room `"r"`. -/
def mgrRoomPair : WebSocketManager :=
  { connections :=
      [("a", { connected_at := 0, subscriptions := ["r"] }),
       ("b", { connected_at := 1, subscriptions := ["r"] })]
    room_connections := [("r", ["a", "b"])]
    message_history := []
    max_history := 1000 }

/-- An initialized engine whose current project has time signature
`(0, 4)` — a `beats_per_bar` of zero, which `Project` does not validate. -/
def engineBadSig : AudioEngine :=
  { is_initialized := true
    is_playing := true
    current_project := some { name := "p", tempo := 120, time_signature := (0, 4) } }

/-- An initialized engine whose current project has tempo `-120`. -/
def engineNegTempo : AudioEngine :=
  { is_initialized := true
    is_playing := true
    current_project := some { name := "p", tempo := -120, time_signature := (4, 4) } }

/-- When `beats_per_bar ≤ 0` and the loop condition holds once, the
beat-normalization loop of `_advance_playhead` never finishes: its body
subtracts a non-positive number, so `beat` never drops below the bound. -/
theorem whileBeat_none_of_nonpos (bpb : Int) (hbpb : bpb ≤ 0) :
    ∀ (fuel : Nat) (beat bar : Int), bpb ≤ beat → whileBeat bpb fuel beat bar = none := by
  intro fuel
  induction fuel with
  | zero =>
    intro beat bar h
    rw [whileBeat, if_pos h]
  | succ f ih =>
    intro beat bar h
    rw [whileBeat, if_pos h]
    exact ih _ _ (by omega)

/-- `_advance_playhead` reaches the beat loop with `beat` unchanged when
the advanced tick count stays below 480, and then diverges whenever the
project's `beats_per_bar` is non-positive and already at or below
`beat`. -/
theorem advance_playhead_none_of_bad_sig (st : AudioEngine) (p : Project) (fuel : Nat)
    (d : ℚ) (hp : st.current_project = some p) (hbpb : p.time_signature.1 ≤ 0)
    (htick : st.playhead_position.tick + pyInt (d * (p.tempo / 60 * 480)) < 480)
    (hbeat : p.time_signature.1 ≤ st.playhead_position.beat) :
    st.advance_playhead fuel d = none := by
  unfold AudioEngine.advance_playhead
  rw [hp]
  simp only
  rw [whileTick.eq_def, if_neg (by omega)]
  simp only
  rw [whileBeat_none_of_nonpos p.time_signature.1 hbpb fuel _ _ hbeat]

/-- When the advanced tick count stays below 480 and the beat is already
below the bar bound, both normalization loops of `_advance_playhead`
exit at once and only the tick field moves. -/
theorem advance_playhead_eq_of_small (st : AudioEngine) (p : Project) (fuel : Nat)
    (d : ℚ) (hp : st.current_project = some p)
    (htick : st.playhead_position.tick + pyInt (d * (p.tempo / 60 * 480)) < 480)
    (hbeat : st.playhead_position.beat < p.time_signature.1) :
    st.advance_playhead fuel d =
      some { st with playhead_position :=
        { bar := st.playhead_position.bar
          beat := st.playhead_position.beat
          tick := st.playhead_position.tick + pyInt (d * (p.tempo / 60 * 480)) } } := by
  unfold AudioEngine.advance_playhead
  rw [hp]
  simp only
  rw [whileTick.eq_def, if_neg (by omega)]
  simp only
  rw [whileBeat.eq_def, if_neg (by omega)]

/-- C4: the claim says a playhead advance with `tempo ≤ 0` or
`beatsPerBar ≤ 0` is rejected with `InvalidParameter` and never loops
forever.  The code has no validation at all: with `beats_per_bar = 0`
the beat-normalization `while` loop never terminates (no fuel finishes
it), and with `tempo = -120` the call returns normally — no error — and
moves the playhead to the unnormalized position `tick = -11`. -/
theorem advance_playhead_no_validation_and_diverges :
    (∀ fuel : Nat, engineBadSig.advance_playhead fuel (512 / 44100) = none) ∧
    engineNegTempo.advance_playhead 1000 (512 / 44100) =
      some { engineNegTempo with playhead_position := { bar := 0, beat := 0, tick := -11 } } := by
  constructor
  · intro fuel
    exact advance_playhead_none_of_bad_sig engineBadSig _ fuel _ rfl (by decide)
      (by norm_num [engineBadSig, pyInt]) (by decide)
  · rw [advance_playhead_eq_of_small engineNegTempo
      { name := "p", tempo := -120, time_signature := (4, 4) } 1000 _ rfl
      (by norm_num [engineNegTempo, pyInt])
      (by decide)]
    norm_num [engineNegTempo, pyInt]

/-- C1: the claim says a `broadcast` never mutates the connection set
mid-traversal and always returns the success count.  With one connected
client whose socket raises `WebSocketDisconnect`, `send_to_client`
disconnects the client during the iteration itself — by the time the
`for` loop asks the dict iterator for the next element the client is
already gone from `connections` — and CPython's changed-size check makes
the call raise `RuntimeError` instead of returning a count. -/
theorem broadcast_mutates_mid_iteration :
    mgrOneClient.broadcast behWsd msg0 [] = .error .runtimeError ∧
    (mgrOneClient.send_to_client behWsd "a" msg0).1.connections = [] ∧
    (mgrOneClient.send_to_client behWsd "a" msg0).2 = false :=
  ⟨rfl, rfl, rfl⟩

/-- C7: the claim says every `broadcast_to_room` call returns the
delivered count and failed clients are disconnected globally.  When room
member `"a"`'s socket raises `WebSocketDisconnect`, the inline
disconnect discards `"a"` from the room's member set while that very set
is being iterated, so the call raises `RuntimeError` and returns no
count at all. -/
theorem broadcast_to_room_crashes_on_failed_send :
    mgrRoomPair.broadcast_to_room behFailA "r" msg0 [] = .error .runtimeError ∧
    (mgrRoomPair.send_to_client behFailA "a" msg0).1.room_connections = [("r", ["b"])] ∧
    (mgrRoomPair.send_to_client behFailA "a" msg0).1.connections =
      [("b", { connected_at := 1, subscriptions := ["r"] })] :=
  ⟨rfl, rfl, rfl⟩

/-- An initialized engine, transport stopped, no loop task running. -/
def engineReady : AudioEngine := { is_initialized := true }

/-- `engineReady` after one `play()`: playing, one loop task. -/
def enginePlaying1 : AudioEngine :=
  { is_initialized := true, is_playing := true, loop_tasks := 1 }

/-- `enginePlaying1` after a second `play()`: two loop tasks. -/
def enginePlaying2 : AudioEngine :=
  { is_initialized := true, is_playing := true, loop_tasks := 2 }

/-- C3: the claim says `play()` starts the tick loop only if it is not
already running, so a second `play()` is idempotent.  The code calls
`asyncio.create_task(self._audio_processing_loop())` unconditionally:
`play()` on an engine that is already `Playing` with one live loop task
leaves two loop tasks running concurrently, so each real-time buffer
interval advances the playhead twice. -/
theorem play_always_spawns_loop_task :
    engineReady.play = .ok enginePlaying1 ∧
    enginePlaying1.is_playing = true ∧
    enginePlaying1.loop_tasks = 1 ∧
    enginePlaying1.play = .ok enginePlaying2 ∧
    enginePlaying2.loop_tasks = 2 :=
  ⟨rfl, rfl, rfl, rfl, rfl⟩

/-- A manager with the single client `"a"`, subscribed to room `"r"`. -/
def mgrDupClient : WebSocketManager :=
  { connections := [("a", { connected_at := 0, subscriptions := ["r"] })]
    room_connections := [("r", ["a"])]
    message_history := []
    max_history := 1000 }

/-- C5 counterexample: the claim says a second `connect("a")` is rejected
with `AlreadyConnected`.  The code assigns
`self.connections[client_id] = connection_info` unconditionally: the
call succeeds and the old record (joined at 0, subscribed to `"r"`) is
silently replaced by a fresh one (joined at 7, no subscriptions). -/
theorem connect_replaces_duplicate :
    dictGet (mgrDupClient.connect behOk "a" 7).connections "a" =
      some { connected_at := 7, subscriptions := [] } ∧
    dictGet mgrDupClient.connections "a" =
      some { connected_at := 0, subscriptions := ["r"] } ∧
    ({ connected_at := 7, subscriptions := [] } : ConnectionInfo) ≠
      { connected_at := 0, subscriptions := ["r"] } :=
  ⟨rfl, rfl, by decide⟩

/-- An engine in the `Playing` state with no project loaded,
at the default 512-sample buffer and 44100 Hz sample rate. -/
def engineNoProject : AudioEngine := { is_initialized := true, is_playing := true }

/-- `engineNoProject` after one tick cycle that took exactly one buffer
duration: the CPU proxy reads 100% and one underrun was counted. -/
def engineNoProjectAfter : AudioEngine :=
  { is_initialized := true, is_playing := true, cpu_usage := 100, buffer_underruns := 1 }

/-- C6 counterexample: the claim says `bufferUnderruns` increases exactly
when `processingTime` is strictly greater than the buffer duration.  The
code sleeps only when `max(0, buffer_duration - processing_time)` is
positive, so a cycle whose processing time equals the buffer duration
exactly (512/44100 s) increments the counter even though
`processingTime > bufferDuration` is false. -/
theorem underrun_at_exact_deadline :
    ¬ ((512 : ℚ) / 44100 > (engineNoProject.buffer_size : ℚ) / (engineNoProject.sample_rate : ℚ)) ∧
    engineNoProject.audio_processing_cycle 0 ((512 : ℚ) / 44100) = some engineNoProjectAfter ∧
    engineNoProjectAfter.buffer_underruns = engineNoProject.buffer_underruns + 1 :=
  ⟨by norm_num [engineNoProject], by
    unfold AudioEngine.audio_processing_cycle AudioEngine.process_audio_buffer
      AudioEngine.advance_playhead
    norm_num [engineNoProject, engineNoProjectAfter, max_self], rfl⟩

/-- C9 counterexample: the claim says every operation leaves only
populated rooms behind.  Connect `"a"`, let it join room `"r"`, then
disconnect it: `disconnect` only discards the id from each room's member
set, so the mapping still contains the entry `"r" ↦ ∅`. -/
theorem disconnect_leaves_empty_room :
    (((WebSocketManager.init.connect behOk "a" 0).join_room "a" "r").1.disconnect
        "a").room_connections = [("r", [])] ∧
    dictContains (((WebSocketManager.init.connect behOk "a" 0).join_room "a"
        "r").1.disconnect "a").room_connections "r" = true :=
  ⟨rfl, rfl⟩

/-- After `d[k] = v`, a `find?` for key `k` returns the new entry. -/
theorem find?_dictSet_self (d : List (String × α)) (k : String) (v : α) :
    (dictSet d k v).find? (fun kv => kv.1 = k) = some (k, v) := by
  unfold dictSet
  by_cases h : dictContains d k
  · rw [if_pos h]
    unfold dictContains at h
    induction d with
    | nil => simp at h
    | cons kv rest ih =>
      by_cases hk : kv.1 = k
      · simp [hk]
      · simp only [List.any_cons, Bool.or_eq_true, decide_eq_true_eq] at h
        rcases h with h1 | h2
        · exact absurd h1 hk
        · simpa [hk] using ih (by simpa using h2)
  · rw [if_neg h]
    unfold dictContains at h
    rw [List.find?_append]
    have hnone : d.find? (fun kv => kv.1 = k) = none := by
      rw [List.find?_eq_none]
      intro kv hkv
      intro hcontra
      exact h (List.any_eq_true.mpr ⟨kv, hkv, hcontra⟩)
    simp [hnone]

/-- After `d[k] = v`, the dict contains `k`. -/
theorem dictContains_dictSet_self (d : List (String × α)) (k : String) (v : α) :
    dictContains (dictSet d k v) k = true := by
  unfold dictContains
  rw [List.any_eq_true]
  exact ⟨(k, v), List.mem_of_find?_eq_some (find?_dictSet_self d k v), by simp⟩

/-- After `d[k] = v`, looking up `k` yields `v`. -/
theorem dictGet_dictSet_self (d : List (String × α)) (k : String) (v : α) :
    dictGet (dictSet d k v) k = some v := by
  unfold dictGet
  rw [find?_dictSet_self]
  rfl

/-- Replacing key `k`'s value in place does not affect a `find?` for a
different key `k'`. -/
theorem find?_map_set_ne (d : List (String × α)) (k : String) (v : α)
    (k' : String) (hne : k' ≠ k) :
    (d.map (fun kv => if kv.1 = k then (k, v) else kv)).find? (fun kv => kv.1 = k') =
      d.find? (fun kv => kv.1 = k') := by
  induction d with
  | nil => rfl
  | cons kv rest ih =>
    rw [List.map_cons]
    by_cases hk : kv.1 = k
    · rw [if_pos hk,
        List.find?_cons_of_neg _ (by simp only [decide_eq_true_eq]; exact fun hc => hne hc.symm),
        List.find?_cons_of_neg _
          (by simp only [decide_eq_true_eq, hk]; exact fun hc => hne hc.symm),
        ih]
    · rw [if_neg hk]
      by_cases hk' : kv.1 = k'
      · rw [List.find?_cons_of_pos _ (by simp [hk']), List.find?_cons_of_pos _ (by simp [hk'])]
      · rw [List.find?_cons_of_neg _ (by simp [hk']), List.find?_cons_of_neg _ (by simp [hk']),
          ih]

/-- `d[k] = v` leaves every other key's binding unchanged. -/
theorem dictGet_dictSet_ne (d : List (String × α)) (k : String) (v : α)
    (k' : String) (hne : k' ≠ k) :
    dictGet (dictSet d k v) k' = dictGet d k' := by
  unfold dictGet dictSet
  by_cases h : dictContains d k
  · rw [if_pos h, find?_map_set_ne d k v k' hne]
  · rw [if_neg h, List.find?_append]
    have h1 : ([(k, v)].find? (fun kv => kv.1 = k')) = none := by
      rw [List.find?_cons_of_neg _
        (by simp only [decide_eq_true_eq]; exact fun hc => hne hc.symm)]
      rfl
    rw [h1, Option.or_none]

/-- Every entry of `dictSet d k v` is either the new binding `(k, v)` or
an entry of the original dict. -/
theorem mem_dictSet (d : List (String × α)) (k : String) (v : α) (kv : String × α)
    (h : kv ∈ dictSet d k v) : kv = (k, v) ∨ kv ∈ d := by
  unfold dictSet at h
  by_cases hc : dictContains d k
  · rw [if_pos hc] at h
    rcases List.mem_map.mp h with ⟨a, ha, hav⟩
    by_cases hak : a.1 = k
    · left; rw [← hav]; simp [hak]
    · right; rw [← hav]; simpa [hak] using ha
  · rw [if_neg hc] at h
    rcases List.mem_append.mp h with h1 | h2
    · right; exact h1
    · left; simpa using h2

/-- C5 (amended): `connect` registers unconditionally — a duplicate
`clientId` silently replaces the existing connection record with a fresh
one (resetting its subscriptions) instead of being rejected with
`AlreadyConnected`; no error channel exists.  Every other client's
record is left unchanged. -/
theorem connect_overwrites_existing_record (st : WebSocketManager)
    (beh : String → SendOutcome) (client_id : String) (now : Nat)
    (hbeh : beh client_id = .ok) :
    dictGet (st.connect beh client_id now).connections client_id =
      some { connected_at := now, subscriptions := [] } ∧
    ∀ c, c ≠ client_id →
      dictGet (st.connect beh client_id now).connections c =
        dictGet st.connections c := by
  unfold WebSocketManager.connect WebSocketManager.send_to_client
  simp only [dictContains_dictSet_self, hbeh, if_true]
  exact ⟨dictGet_dictSet_self _ _ _, fun c hc => dictGet_dictSet_ne _ _ _ c hc⟩

/-- Witness for the amended C5 claim at a concrete duplicate connect. -/
theorem connect_overwrites_existing_record_witness :
    dictGet (mgrDupClient.connect behOk "a" 7).connections "a" =
      some { connected_at := 7, subscriptions := [] } ∧
    dictGet (mgrDupClient.connect behOk "a" 7).connections "b" =
      dictGet mgrDupClient.connections "b" :=
  ⟨(connect_overwrites_existing_record mgrDupClient behOk "a" 7 rfl).1,
   (connect_overwrites_existing_record mgrDupClient behOk "a" 7 rfl).2 "b" (by decide)⟩

/-- The room map after a `leave_room`: the second half of the method only
touches the client's subscriptions, so the rooms are exactly what the
first half (discard, then prune-if-empty) produces. -/
theorem leave_room_rooms (st : WebSocketManager) (client_id room : String) :
    (st.leave_room client_id room).1.room_connections =
      if dictContains st.room_connections room then
        if pyDiscard (dictGetD st.room_connections room []) client_id = [] then
          dictDel st.room_connections room
        else
          dictSet st.room_connections room
            (pyDiscard (dictGetD st.room_connections room []) client_id)
      else st.room_connections := by
  unfold WebSocketManager.leave_room
  dsimp only
  split <;> split <;> first | rfl | (split <;> rfl)

/-- C9 (amended): `leave_room` preserves the all-rooms-populated
invariant (it deletes a room entry once its member set becomes empty),
but `disconnect` only discards the client from each room's member set:
it never deletes a room entry, so a room emptied by a disconnect stays
in the mapping with an empty member set. -/
theorem leave_room_prunes_but_disconnect_keeps_entries (st : WebSocketManager)
    (client_id room : String)
    (hne : ∀ kv ∈ st.room_connections, kv.2 ≠ []) :
    (∀ kv ∈ (st.leave_room client_id room).1.room_connections, kv.2 ≠ []) ∧
    (st.disconnect client_id).room_connections.map Prod.fst =
      st.room_connections.map Prod.fst := by
  constructor
  · intro kv hkv
    rw [leave_room_rooms] at hkv
    by_cases h1 : dictContains st.room_connections room
    · rw [if_pos h1] at hkv
      by_cases h2 : pyDiscard (dictGetD st.room_connections room []) client_id = []
      · rw [if_pos h2] at hkv
        exact hne kv (List.mem_filter.mp hkv).1
      · rw [if_neg h2] at hkv
        rcases mem_dictSet _ _ _ _ hkv with heq | hmem
        · subst heq; simpa using h2
        · exact hne _ hmem
    · rw [if_neg h1] at hkv
      exact hne kv hkv
  · unfold WebSocketManager.disconnect
    split
    · simp
    · rfl

/-- Witness for the amended C9 claim: a concrete `leave_room` and
`disconnect` on a two-member room. -/
theorem leave_room_prunes_witness :
    (("r", ["b"]) ∈ (mgrRoomPair.leave_room "a" "r").1.room_connections →
      (("r", ["b"]) : String × List String).2 ≠ []) ∧
    (mgrRoomPair.disconnect "a").room_connections.map Prod.fst =
      mgrRoomPair.room_connections.map Prod.fst :=
  ⟨fun hm => (leave_room_prunes_but_disconnect_keeps_entries mgrRoomPair "a" "r"
      (by decide)).1 ("r", ["b"]) hm,
   (leave_room_prunes_but_disconnect_keeps_entries mgrRoomPair "a" "r" (by decide)).2⟩

/-- `_process_audio_buffer` never changes the engine state (both the
no-project early return and the placeholder body are no-ops). -/
theorem process_audio_buffer_eq (st : AudioEngine) : st.process_audio_buffer = st := by
  unfold AudioEngine.process_audio_buffer
  cases st.current_project <;> rfl

/-- `_advance_playhead` writes only `playhead_position`: every other
field survives, and without a project the state is returned untouched. -/
theorem advance_playhead_frame (st : AudioEngine) (fuel : Nat) (d : ℚ)
    (st' : AudioEngine) (h : st.advance_playhead fuel d = some st') :
    st' = { st with playhead_position := st'.playhead_position } ∧
    (st.current_project = none → st' = st) := by
  unfold AudioEngine.advance_playhead at h
  cases hp : st.current_project with
  | none =>
    rw [hp] at h
    simp only [Option.some.injEq] at h
    subst h
    refine ⟨?_, fun _ => rfl⟩
    rw [← hp]
  | some p =>
    rw [hp] at h
    dsimp only at h
    cases h1 : whileTick fuel
        (st.playhead_position.tick + pyInt (d * (p.tempo / 60 * 480)))
        st.playhead_position.beat with
    | none => rw [h1] at h; cases h
    | some tb =>
      obtain ⟨tick, beat⟩ := tb
      rw [h1] at h
      dsimp only at h
      cases h2 : whileBeat p.time_signature.1 fuel beat st.playhead_position.bar with
      | none => rw [h2] at h; cases h
      | some bb =>
        obtain ⟨beat2, bar⟩ := bb
        rw [h2] at h
        dsimp only at h
        simp only [Option.some.injEq] at h
        subst h
        exact ⟨rfl, fun hc => Option.noConfusion hc⟩

/-- One tick cycle preserves the transport flags, the project, and the
audio settings; it bumps `buffer_underruns` by one exactly when the
cycle's processing time reached the buffer duration, and without a
project it leaves the playhead untouched. -/
theorem audio_processing_cycle_spec (st : AudioEngine) (fuel : Nat) (pt : ℚ)
    (st' : AudioEngine) (h : st.audio_processing_cycle fuel pt = some st') :
    st'.buffer_underruns =
      st.buffer_underruns +
        (if (st.buffer_size : ℚ) / (st.sample_rate : ℚ) ≤ pt then 1 else 0) ∧
    st'.is_playing = st.is_playing ∧
    st'.current_project = st.current_project ∧
    st'.buffer_size = st.buffer_size ∧
    st'.sample_rate = st.sample_rate ∧
    (st.current_project = none → st'.playhead_position = st.playhead_position) := by
  unfold AudioEngine.audio_processing_cycle at h
  rw [process_audio_buffer_eq] at h
  dsimp only at h
  cases ha : st.advance_playhead fuel ((st.buffer_size : ℚ) / (st.sample_rate : ℚ)) with
  | none => rw [ha] at h; cases h
  | some st1 =>
    rw [ha] at h
    obtain ⟨hframe, hnone⟩ := advance_playhead_frame st fuel _ st1 ha
    simp only [Option.some.injEq] at h
    have hcond : (0 < max 0 ((st.buffer_size : ℚ) / (st.sample_rate : ℚ) - pt)) ↔
        pt < (st.buffer_size : ℚ) / (st.sample_rate : ℚ) := by
      rw [lt_max_iff]
      constructor
      · rintro (hc | hc)
        · exact absurd hc (lt_irrefl 0)
        · linarith
      · intro hc; right; linarith
    have hu : st1.buffer_underruns = st.buffer_underruns := by rw [hframe]
    have hpl : st1.is_playing = st.is_playing := by rw [hframe]
    have hcp : st1.current_project = st.current_project := by rw [hframe]
    have hbs : st1.buffer_size = st.buffer_size := by rw [hframe]
    have hsr : st1.sample_rate = st.sample_rate := by rw [hframe]
    by_cases hlt : pt < (st.buffer_size : ℚ) / (st.sample_rate : ℚ)
    · rw [if_pos (hcond.mpr hlt)] at h
      subst h
      rw [if_neg (not_le.mpr hlt)]
      refine ⟨?_, ?_, ?_, ?_, ?_, fun hc => ?_⟩ <;> dsimp only
      · rw [hu, Nat.add_zero]
      · exact hpl
      · exact hcp
      · exact hbs
      · exact hsr
      · rw [hnone hc]
    · rw [if_neg (fun hc => hlt (hcond.mp hc))] at h
      subst h
      rw [if_pos (not_lt.mp hlt)]
      refine ⟨?_, ?_, ?_, ?_, ?_, fun hc => ?_⟩ <;> dsimp only
      · rw [hu]
      · exact hpl
      · exact hcp
      · exact hbs
      · exact hsr
      · rw [hnone hc]

/-- Underruns never decrease across any run of the tick loop. -/
theorem audio_processing_loop_underruns_mono (fuel : Nat) :
    ∀ (pts : List ℚ) (st st' : AudioEngine),
      AudioEngine.audio_processing_loop fuel pts st = some st' →
      st.buffer_underruns ≤ st'.buffer_underruns := by
  intro pts
  induction pts with
  | nil =>
    intro st st' h
    simp only [AudioEngine.audio_processing_loop, Option.some.injEq] at h
    subst h
    exact le_refl _
  | cons pt rest ih =>
    intro st st' h
    unfold AudioEngine.audio_processing_loop at h
    by_cases hp : st.is_playing = true
    · rw [if_pos hp] at h
      cases hc : st.audio_processing_cycle fuel pt with
      | none => rw [hc] at h; cases h
      | some st1 =>
        rw [hc] at h
        have h1 := (audio_processing_cycle_spec st fuel pt st1 hc).1
        have h2 := ih st1 st' h
        split_ifs at h1 <;> omega
    · rw [if_neg hp] at h
      simp only [Option.some.injEq] at h
      subst h
      exact le_refl _

/-- C6 (amended): while `Playing`, `bufferUnderruns` is non-decreasing
across any run of the tick loop, and a cycle increments it by one
exactly when its `processingTime` is greater than **or equal to** the
buffer duration (the code sleeps only when
`max(0, bufferDuration - processingTime)` is strictly positive, so the
exact-deadline cycle also counts as an underrun); otherwise it is
unchanged. -/
theorem underruns_monotone_and_increment_iff (st : AudioEngine) (fuel : Nat) (pt : ℚ)
    (st' : AudioEngine) (_hplay : st.is_playing = true)
    (h : st.audio_processing_cycle fuel pt = some st') :
    st'.buffer_underruns =
      st.buffer_underruns +
        (if (st.buffer_size : ℚ) / (st.sample_rate : ℚ) ≤ pt then 1 else 0) ∧
    st.buffer_underruns ≤ st'.buffer_underruns ∧
    ∀ (pts : List ℚ) (st₂ : AudioEngine),
      AudioEngine.audio_processing_loop fuel pts st = some st₂ →
      st.buffer_underruns ≤ st₂.buffer_underruns := by
  have h1 := (audio_processing_cycle_spec st fuel pt st' h).1
  refine ⟨h1, ?_, fun pts st₂ h₂ => audio_processing_loop_underruns_mono fuel pts st st₂ h₂⟩
  split_ifs at h1 <;> omega

/-- Witness for the amended C6 claim: a cycle of the no-project engine
whose processing time equals the buffer duration exactly. -/
theorem underruns_increment_witness :
    engineNoProjectAfter.buffer_underruns =
      engineNoProject.buffer_underruns +
        (if (engineNoProject.buffer_size : ℚ) / (engineNoProject.sample_rate : ℚ) ≤
            (512 : ℚ) / 44100 then 1 else 0) ∧
    engineNoProject.buffer_underruns ≤ engineNoProjectAfter.buffer_underruns := by
  have hc : engineNoProject.audio_processing_cycle 0 ((512 : ℚ) / 44100) =
      some engineNoProjectAfter := by
    unfold AudioEngine.audio_processing_cycle AudioEngine.process_audio_buffer
      AudioEngine.advance_playhead
    norm_num [engineNoProject, engineNoProjectAfter, max_self]
  have h := underruns_monotone_and_increment_iff engineNoProject 0 ((512 : ℚ) / 44100)
    engineNoProjectAfter rfl hc
  exact ⟨h.1, h.2.1⟩

/-- Any run of the tick loop started without a project leaves the
playhead untouched (each cycle's `_advance_playhead` early-returns and
the project stays unset). -/
theorem audio_processing_loop_no_project (fuel : Nat) :
    ∀ (pts : List ℚ) (st st' : AudioEngine), st.current_project = none →
      AudioEngine.audio_processing_loop fuel pts st = some st' →
      st'.playhead_position = st.playhead_position := by
  intro pts
  induction pts with
  | nil =>
    intro st st' _ h
    simp only [AudioEngine.audio_processing_loop, Option.some.injEq] at h
    subst h
    rfl
  | cons pt rest ih =>
    intro st st' hn h
    unfold AudioEngine.audio_processing_loop at h
    by_cases hp : st.is_playing = true
    · rw [if_pos hp] at h
      cases hc : st.audio_processing_cycle fuel pt with
      | none => rw [hc] at h; cases h
      | some st1 =>
        rw [hc] at h
        obtain ⟨-, -, hcp, -, -, hph⟩ := audio_processing_cycle_spec st fuel pt st1 hc
        rw [ih st1 st' (hcp.trans hn) h, hph hn]
    · rw [if_neg hp] at h
      simp only [Option.some.injEq] at h
      subst h
      rfl

/-- C10: with no project loaded, `_advance_playhead` returns the state
untouched, every run of the tick loop leaves `playhead_position` exactly
where it was, and `play()` still succeeds — `get_status` then reports
`is_playing = true` while the playhead stays frozen at its current value
(the zeroed `TimelinePosition` for a fresh engine). -/
theorem no_project_playhead_frozen (st : AudioEngine)
    (hproj : st.current_project = none) :
    (∀ (fuel : Nat) (d : ℚ), st.advance_playhead fuel d = some st) ∧
    (∀ (fuel : Nat) (pts : List ℚ) (st' : AudioEngine),
        AudioEngine.audio_processing_loop fuel pts st = some st' →
        st'.playhead_position = st.playhead_position) ∧
    (st.is_initialized = true →
        st.play = .ok { st with is_playing := true, loop_tasks := st.loop_tasks + 1 } ∧
        (AudioEngine.get_status
            { st with is_playing := true, loop_tasks := st.loop_tasks + 1 }).is_playing = true ∧
        ({ st with is_playing := true, loop_tasks := st.loop_tasks + 1 } :
            AudioEngine).playhead_position = st.playhead_position) := by
  refine ⟨fun fuel d => ?_,
    fun fuel pts st' h => audio_processing_loop_no_project fuel pts st st' hproj h,
    fun hinit => ?_⟩
  · unfold AudioEngine.advance_playhead
    rw [hproj]
  · unfold AudioEngine.play
    rw [if_pos hinit]
    exact ⟨rfl, rfl, rfl⟩

/-- Witness for C10: the fresh initialized engine (no project) with one
advance call, one (not-playing) loop run, and one `play()`. -/
theorem no_project_playhead_frozen_witness :
    engineReady.advance_playhead 5 1 = some engineReady ∧
    engineReady.playhead_position = engineReady.playhead_position ∧
    engineReady.play =
      .ok { engineReady with is_playing := true, loop_tasks := engineReady.loop_tasks + 1 } ∧
    (AudioEngine.get_status
        { engineReady with
          is_playing := true
          loop_tasks := engineReady.loop_tasks + 1 }).is_playing = true := by
  have h := no_project_playhead_frozen engineReady rfl
  exact ⟨h.1 5 1, h.2.1 5 [1] engineReady rfl, (h.2.2 rfl).1, (h.2.2 rfl).2.1⟩

/-- C2: the spec-modelled `seek` rejects a negative position with
`InvalidParameter` — leaving the caller's engine state, hence
`get_status`, unchanged — and for a non-negative position succeeds in
any transport state, changing only the playhead: the new bar/beat/tick
decompose the total tick count `int(seconds * (tempo / 60) * 480)`,
and the position is normalized (`0 ≤ tick < 480`, `0 ≤ beat <
beatsPerBar`) whenever tempo and beats-per-bar are positive. -/
theorem seek_rejects_negative_and_sets_position (st : AudioEngine) (pos : ℚ) :
    (pos < 0 →
      st.seek pos = .error .invalidParameter ∧
      st.seekResultState pos = st) ∧
    (0 ≤ pos →
      ∃ st', st.seek pos = .ok st' ∧
        st'.is_playing = st.is_playing ∧
        st'.is_recording = st.is_recording ∧
        st'.current_project = st.current_project ∧
        st'.buffer_underruns = st.buffer_underruns ∧
        (st'.playhead_position.bar * st.seekBeatsPerBar + st'.playhead_position.beat) * 480 +
            st'.playhead_position.tick =
          pyInt (pos * (st.seekTempo / 60 * 480)) ∧
        (0 < st.seekBeatsPerBar → 0 < st.seekTempo →
          0 ≤ st'.playhead_position.tick ∧ st'.playhead_position.tick < 480 ∧
          0 ≤ st'.playhead_position.beat ∧ st'.playhead_position.beat < st.seekBeatsPerBar ∧
          0 ≤ st'.playhead_position.bar)) := by
  constructor
  · intro hneg
    have h1 : st.seek pos = .error .invalidParameter := by
      unfold AudioEngine.seek
      rw [if_pos hneg]
    refine ⟨h1, ?_⟩
    unfold AudioEngine.seekResultState
    rw [h1]
  · intro hpos
    have hnlt : ¬ pos < 0 := not_lt.mpr hpos
    refine ⟨{ st with playhead_position :=
        { bar := ((pyInt (pos * (st.seekTempo / 60 * 480))).ediv 480).ediv st.seekBeatsPerBar
          beat := ((pyInt (pos * (st.seekTempo / 60 * 480))).ediv 480).emod st.seekBeatsPerBar
          tick := (pyInt (pos * (st.seekTempo / 60 * 480))).emod 480 } },
      ?_, rfl, rfl, rfl, rfl, ?_, ?_⟩
    · unfold AudioEngine.seek
      rw [if_neg hnlt]
    · dsimp only
      have h1 : 480 * ((pyInt (pos * (st.seekTempo / 60 * 480))).ediv 480) +
          (pyInt (pos * (st.seekTempo / 60 * 480))).emod 480 =
          pyInt (pos * (st.seekTempo / 60 * 480)) :=
        Int.ediv_add_emod _ 480
      have h2 : st.seekBeatsPerBar *
            (((pyInt (pos * (st.seekTempo / 60 * 480))).ediv 480).ediv st.seekBeatsPerBar) +
          ((pyInt (pos * (st.seekTempo / 60 * 480))).ediv 480).emod st.seekBeatsPerBar =
          (pyInt (pos * (st.seekTempo / 60 * 480))).ediv 480 :=
        Int.ediv_add_emod _ _
      linear_combination 480 * h2 + h1
    · intro hbpb htempo
      dsimp only
      have hq : 0 ≤ pos * (st.seekTempo / 60 * 480) := by positivity
      have htt : 0 ≤ pyInt (pos * (st.seekTempo / 60 * 480)) := by
        unfold pyInt
        rw [if_pos hq]
        exact Int.floor_nonneg.mpr hq
      refine ⟨Int.emod_nonneg _ (by norm_num), Int.emod_lt_of_pos _ (by norm_num),
        Int.emod_nonneg _ (ne_of_gt hbpb), Int.emod_lt_of_pos _ hbpb,
        Int.ediv_nonneg (Int.ediv_nonneg htt (by norm_num)) (le_of_lt hbpb)⟩

/-- Witness for C2 at the fresh engine: `seek(-5)` is rejected with the
state unchanged, and `seek(2)` at the default tempo 120 and 4/4 lands on
bar 1, beat 0, tick 0. -/
theorem seek_contract_witness :
    (engineReady.seek (-5) = .error .invalidParameter ∧
      engineReady.seekResultState (-5) = engineReady) ∧
    engineReady.seek 2 =
      .ok { engineReady with playhead_position := { bar := 1, beat := 0, tick := 0 } } := by
  refine ⟨(seek_rejects_negative_and_sets_position engineReady (-5)).1 (by norm_num), ?_⟩
  unfold AudioEngine.seek AudioEngine.seekTempo AudioEngine.seekBeatsPerBar
  norm_num [engineReady, pyInt]

/-- Closed form of one `_add_to_history` step (for a positive bound):
append, then drop from the front exactly when the bound is exceeded. -/
theorem add_to_history_message_history (st : WebSocketManager) (m : WSMessage)
    (hpos : 0 < st.max_history) :
    (st.add_to_history m).message_history =
      if st.max_history < (st.message_history ++ [m]).length then
        (st.message_history ++ [m]).drop
          ((st.message_history ++ [m]).length - st.max_history)
      else st.message_history ++ [m] := by
  unfold WebSocketManager.add_to_history
  dsimp only
  split
  · rw [if_neg hpos.ne']
  · rfl

/-- A manager whose history ring has the given bound (fresh otherwise). -/
def histManager (bound : Nat) : WebSocketManager :=
  { connections := [], room_connections := [], message_history := [], max_history := bound }

/-- Folding `_add_to_history` keeps exactly the last `max_history`
messages: starting from any history within the bound, the result is the
concatenation with everything before the last `N` entries dropped. -/
theorem foldl_add_to_history (N : Nat) (hN : 0 < N) :
    ∀ (msgs : List WSMessage) (st : WebSocketManager),
      st.max_history = N → st.message_history.length ≤ N →
      (msgs.foldl WebSocketManager.add_to_history st).message_history =
        (st.message_history ++ msgs).drop
          (st.message_history.length + msgs.length - N) := by
  intro msgs
  induction msgs with
  | nil =>
    intro st hmax hlen
    simp only [List.foldl_nil, List.append_nil, List.length_nil, Nat.add_zero]
    rw [Nat.sub_eq_zero_of_le hlen, List.drop_zero]
  | cons m ms ih =>
    intro st hmax hlen
    rw [List.foldl_cons]
    have hmax1 : (st.add_to_history m).max_history = st.max_history := rfl
    have hmh := add_to_history_message_history st m (hmax ▸ hN)
    have hlapp : (st.message_history ++ [m]).length = st.message_history.length + 1 := by
      simp
    by_cases hover : st.max_history < (st.message_history ++ [m]).length
    · have hlenN : st.message_history.length = N := by omega
      rw [if_pos hover] at hmh
      have hd : (st.add_to_history m).message_history =
          (st.message_history ++ [m]).drop 1 := by
        rw [hmh]
        congr 1
        omega
      have hlen2 : (st.add_to_history m).message_history.length ≤ N := by
        rw [hd, List.length_drop]
        omega
      rw [ih (st.add_to_history m) (hmax1.trans hmax) hlen2, hd]
      rw [← List.drop_append_of_le_length (by simp : 1 ≤ (st.message_history ++ [m]).length)]
      rw [List.drop_drop]
      have hl : (st.message_history ++ [m]) ++ ms = st.message_history ++ m :: ms := by
        simp
      rw [hl]
      congr 1
      simp only [List.length_drop, List.length_append, List.length_cons, List.length_nil]
      omega
    · rw [if_neg hover] at hmh
      have hlen2 : (st.add_to_history m).message_history.length ≤ N := by
        rw [hmh]
        omega
      rw [ih (st.add_to_history m) (hmax1.trans hmax) hlen2, hmh]
      have hl : (st.message_history ++ [m]) ++ ms = st.message_history ++ m :: ms := by
        simp
      rw [hl]
      congr 1
      simp only [List.length_append, List.length_cons, List.length_nil]
      omega

/-- C8: with a positive bound `N`, an append never grows the history
past the bound, and after `N + k` appends into a fresh ring the history
is exactly the last `N` appended messages in insertion order (the first
`k` evicted from the front); asking for the last `N` returns that same
sequence. -/
theorem history_ring_bound_and_order (N k : Nat) (hN : 0 < N) (msgs : List WSMessage)
    (hlen : msgs.length = N + k) :
    (∀ (st : WebSocketManager) (m : WSMessage),
        0 < st.max_history → st.message_history.length ≤ st.max_history →
        (st.add_to_history m).message_history.length ≤ st.max_history) ∧
    (msgs.foldl WebSocketManager.add_to_history (histManager N)).message_history =
      msgs.drop k ∧
    (msgs.foldl WebSocketManager.add_to_history (histManager N)).recent N =
      msgs.drop k := by
  have hfold := foldl_add_to_history N hN msgs (histManager N) rfl (by simp [histManager])
  have hfold' : (msgs.foldl WebSocketManager.add_to_history
      (histManager N)).message_history = msgs.drop k := by
    rw [hfold]
    show ([] ++ msgs).drop (0 + msgs.length - N) = msgs.drop k
    rw [List.nil_append]
    congr 1
    omega
  refine ⟨?_, hfold', ?_⟩
  · intro st m h0 hle
    rw [add_to_history_message_history st m h0]
    split
    · rw [List.length_drop]
      omega
    · rename_i hcond
      simp only [List.length_append, List.length_cons, List.length_nil] at hcond ⊢
      omega
  · unfold WebSocketManager.recent
    rw [if_neg hN.ne', hfold', List.length_drop, hlen,
      show N + k - k - N = 0 from by omega, List.drop_zero]

/-- First sample event for the ring witness. -/
def msgA : WSMessage := { type := "transport_update", data := "a", timestamp := 0 }

/-- Second sample event for the ring witness. -/
def msgB : WSMessage := { type := "playhead_position", data := "b", timestamp := 1 }

/-- Third sample event for the ring witness. -/
def msgC : WSMessage := { type := "performance_metrics", data := "c", timestamp := 2 }

/-- Witness for C8 at bound 2 and three appends. -/
theorem history_ring_witness :
    (([msgA, msgB, msgC].foldl WebSocketManager.add_to_history
        (histManager 2)).message_history = [msgA, msgB, msgC].drop 1) ∧
    (([msgA, msgB, msgC].foldl WebSocketManager.add_to_history
        (histManager 2)).recent 2 = [msgA, msgB, msgC].drop 1) ∧
    ((histManager 2).add_to_history msgA).message_history.length ≤
      (histManager 2).max_history :=
  ⟨(history_ring_bound_and_order 2 1 (by norm_num) [msgA, msgB, msgC] rfl).2.1,
   (history_ring_bound_and_order 2 1 (by norm_num) [msgA, msgB, msgC] rfl).2.2,
   (history_ring_bound_and_order 2 1 (by norm_num) [msgA, msgB, msgC] rfl).1
     (histManager 2) msgA (by norm_num [histManager]) (by norm_num [histManager])⟩
